import Mathlib

/-!
# StructuraLens — verification of the local geometry editor

Shallow embedding of the two local state-mutation functions of the
repository, `updateDimension` and `updateLoad`
(`src/components/BeamVisualizer.tsx`), together with the data model of
`src/types.ts`, and proofs of the specified properties.

Modelling conventions:
* JavaScript numbers are modelled as exact rationals `ℚ`; the claims are
  about the arithmetic relationships of the code, not about rounding.
* `totalLength` is modelled as `WithBot ℚ`: the code assigns it
  `Math.max(...nodes.map(n => n.position))`, and in JavaScript `Math.max()`
  of an empty argument list is `-Infinity`, which `⊥` represents.  Every
  other numeric field only ever holds a finite value in this code.
  `List.maximum` is exactly the JS spread-`Math.max`: `⊥` on `[]`,
  the greatest element otherwise.
* The `forEach` loops that mutate array elements in place are modelled as
  maps producing the final array contents; `findIndex` is `List.findIdx?`.
-/

namespace StructuraLens

/-- `SupportType` enum from `src/types.ts`. -/
inductive SupportType where
  | FIXED | PIN | ROLLER | FREE | HINGE
deriving DecidableEq

/-- `LoadType` enum from `src/types.ts`. -/
inductive LoadType where
  | DISTRIBUTED | POINT | MOMENT
deriving DecidableEq

/-- The direction union type of `BeamLoad` from `src/types.ts`. -/
inductive Direction where
  | UP | DOWN | CLOCKWISE | COUNTER_CLOCKWISE
deriving DecidableEq

/-- `BeamNode` from `src/types.ts` (`supportType` and `hasHinge` are
optional fields). -/
structure BeamNode where
  id : String
  label : String
  position : ℚ
  supportType : Option SupportType
  hasHinge : Option Bool
deriving DecidableEq

/-- `BeamLoad` from `src/types.ts`; `end` is a Lean keyword, written
`«end»`. -/
structure BeamLoad where
  id : String
  type : LoadType
  start : ℚ
  «end» : ℚ
  magnitude : ℚ
  unit : String
  symbol : String
  direction : Direction
deriving DecidableEq

/-- `Dimension` from `src/types.ts` (`yOffset` is optional). -/
structure Dimension where
  id : String
  start : ℚ
  «end» : ℚ
  value : ℚ
  unit : String
  symbol : String
  yOffset : Option ℚ
deriving DecidableEq

/-- `BeamStructure` from `src/types.ts`.  `totalLength` lives in
`WithBot ℚ` because `updateDimension` assigns it a JS `Math.max(...)`,
which is `-Infinity` (`⊥`) when the node list is empty. -/
structure BeamStructure where
  totalLength : WithBot ℚ
  nodes : List BeamNode
  loads : List BeamLoad
  dimensions : List Dimension
deriving DecidableEq

/-- The comparison tolerance `0.001` used throughout `updateDimension`. -/
def epsilon : ℚ := 1 / 1000

/-- Body of the dimension `forEach` in `updateDimension`:
`if (i !== dimIndex && d.start >= pivotX - 0.001) { d.start += diff; d.end += diff; }`. -/
def shiftDim (dimIndex : Nat) (pivotX diff : ℚ) (i : Nat) (d : Dimension) : Dimension :=
  if i ≠ dimIndex ∧ d.start ≥ pivotX - epsilon then
    { d with start := d.start + diff, «end» := d.«end» + diff }
  else d

/-- Body of the node `forEach` in `updateDimension`:
`if (n.position >= pivotX - 0.001) { n.position += diff; }`. -/
def shiftNode (pivotX diff : ℚ) (n : BeamNode) : BeamNode :=
  if n.position ≥ pivotX - epsilon then
    { n with position := n.position + diff }
  else n

/-- Body of the load `forEach` in `updateDimension`:
the whole load is translated when `l.start >= pivotX - 0.001`; otherwise,
when `l.end >= pivotX - 0.001 && l.start < pivotX`, only `l.end` moves. -/
def shiftLoad (pivotX diff : ℚ) (l : BeamLoad) : BeamLoad :=
  if l.start ≥ pivotX - epsilon then
    { l with start := l.start + diff, «end» := l.«end» + diff }
  else if l.«end» ≥ pivotX - epsilon ∧ l.start < pivotX then
    { l with «end» := l.«end» + diff }
  else l

/-- Index-aware map, the model of `Array.prototype.forEach((x, i) => ...)`
when the callback rewrites each element from its index: `mapIdxFrom f i l`
applies `f` to each element of `l` with indices counted from `i`. -/
def mapIdxFrom (f : Nat → α → α) : Nat → List α → List α
  | _, [] => []
  | i, x :: xs => f i x :: mapIdxFrom f (i + 1) xs

/-- `updateDimension` from `src/components/BeamVisualizer.tsx`, modelled as
the structure-to-structure transformation it performs (the React state
plumbing `result`/`setResult` around it is identity on the structure):

* locate the edited dimension by id (`findIndex`); absent id is a no-op;
* `diff = newValue - oldDim.value`;
* replace the edited dimension with `{ ...oldDim, value: newValue, end: oldDim.start + newValue }`;
* `pivotX = oldDim.end` (the end before the edit);
* shift every other dimension with `start >= pivotX - 0.001` by `diff` on
  both ends, every node with `position >= pivotX - 0.001` by `diff`, and
  every load per `shiftLoad`;
* recompute `totalLength = Math.max(...nodes.map(n => n.position))`.

The inner `none` branch is unreachable (`findIdx?` returns in-range
indices) but keeps the definition total without a proof obligation. -/
def updateDimension (s : BeamStructure) (dimId : String) (newValue : ℚ) : BeamStructure :=
  match s.dimensions.findIdx? (fun d => d.id == dimId) with
  | none => s
  | some dimIndex =>
    match s.dimensions[dimIndex]? with
    | none => s
    | some oldDim =>
      let diff := newValue - oldDim.value
      let dims1 := s.dimensions.set dimIndex
        { oldDim with value := newValue, «end» := oldDim.start + newValue }
      let pivotX := oldDim.«end»
      let dims2 := mapIdxFrom (shiftDim dimIndex pivotX diff) 0 dims1
      let nodes2 := s.nodes.map (shiftNode pivotX diff)
      let loads2 := s.loads.map (shiftLoad pivotX diff)
      { totalLength := (nodes2.map (fun n => n.position)).maximum,
        nodes := nodes2, loads := loads2, dimensions := dims2 }

/-- A field update for `updateLoad`: the TypeScript signature is
`(field: keyof BeamLoad, value: any)` with `{ ...load, [field]: value }`;
each constructor names one field of `BeamLoad` and carries the new value
at that field's type. -/
inductive LoadFieldUpdate where
  | id (v : String)
  | type (v : LoadType)
  | start (v : ℚ)
  | «end» (v : ℚ)
  | magnitude (v : ℚ)
  | unit (v : String)
  | symbol (v : String)
  | direction (v : Direction)
deriving DecidableEq

/-- `{ ...load, [field]: value }` — replace the one named field. -/
def applyLoadField (l : BeamLoad) : LoadFieldUpdate → BeamLoad
  | .id v => { l with id := v }
  | .type v => { l with type := v }
  | .start v => { l with start := v }
  | .«end» v => { l with «end» := v }
  | .magnitude v => { l with magnitude := v }
  | .unit v => { l with unit := v }
  | .symbol v => { l with symbol := v }
  | .direction v => { l with direction := v }

/-- `updateLoad` from `src/components/BeamVisualizer.tsx`: find the load by
id; if found, replace that entry by the field-updated load; otherwise the
structure is untouched (the code skips `setResult`). -/
def updateLoad (s : BeamStructure) (loadId : String) (u : LoadFieldUpdate) : BeamStructure :=
  match s.loads.findIdx? (fun l => l.id == loadId) with
  | none => s
  | some idx =>
    match s.loads[idx]? with
    | none => s
    | some l => { s with loads := s.loads.set idx (applyLoadField l u) }

/-! ## List helper lemmas -/

theorem length_mapIdxFrom (f : Nat → α → α) :
    ∀ (i : Nat) (l : List α), (mapIdxFrom f i l).length = l.length
  | _, [] => rfl
  | i, _ :: xs => congrArg Nat.succ (length_mapIdxFrom f (i + 1) xs)

theorem getElem?_mapIdxFrom (f : Nat → α → α) :
    ∀ (i : Nat) (l : List α) (j : Nat),
      (mapIdxFrom f i l)[j]? = (l[j]?).map (f (i + j))
  | _, [], _ => by simp [mapIdxFrom]
  | i, x :: xs, 0 => by simp [mapIdxFrom]
  | i, x :: xs, j + 1 => by
    simpa [mapIdxFrom, Nat.add_assoc, Nat.add_comm 1 j] using
      getElem?_mapIdxFrom f (i + 1) xs j

theorem mapIdxFrom_id (f : Nat → α → α) (hf : ∀ j x, f j x = x) :
    ∀ (i : Nat) (l : List α), mapIdxFrom f i l = l
  | _, [] => rfl
  | i, x :: xs => by rw [mapIdxFrom, hf, mapIdxFrom_id f hf]

theorem set_getElem?_eq : ∀ (l : List α) (i : Nat) (a : α), l[i]? = some a → l.set i a = l
  | [], _, _, h => by simp at h
  | x :: xs, 0, a, h => by simp_all
  | x :: xs, i + 1, a, h => by
    simp only [List.getElem?_cons_succ] at h
    simp [List.set_cons_succ, set_getElem?_eq xs i a h]

theorem map_pointwise_id {l : List α} {f : α → α} (h : ∀ x ∈ l, f x = x) : l.map f = l := by
  induction l with
  | nil => rfl
  | cons x xs ih => rw [List.map_cons, h x (List.mem_cons_self x xs), ih fun y hy => h y (List.mem_cons_of_mem x hy)]

theorem lt_length_of_getElem? {l : List α} {i : Nat} {a : α} (h : l[i]? = some a) :
    i < l.length := by
  obtain ⟨hlt, -⟩ := List.getElem?_eq_some_iff.mp h
  exact hlt

theorem exists_getElem?_of_findIdx? {l : List α} {p : α → Bool} {i : Nat}
    (h : l.findIdx? p = some i) : ∃ a, l[i]? = some a := by
  obtain ⟨hlt, -, -⟩ := List.findIdx?_eq_some_iff_getElem.mp h
  exact ⟨l[i], List.getElem?_eq_some_iff.mpr ⟨hlt, rfl⟩⟩

/-! ## Unfolding lemmas for the two operations -/

/-- What `updateDimension` computes when the edited dimension is found at
index `i` with contents `oldDim`. -/
theorem updateDimension_eq_of_found {s : BeamStructure} {dimId : String} {newValue : ℚ}
    {i : Nat} {oldDim : Dimension}
    (h1 : s.dimensions.findIdx? (fun d => d.id == dimId) = some i)
    (h2 : s.dimensions[i]? = some oldDim) :
    updateDimension s dimId newValue =
      { totalLength := ((s.nodes.map (shiftNode oldDim.«end» (newValue - oldDim.value))).map
          (fun n => n.position)).maximum,
        nodes := s.nodes.map (shiftNode oldDim.«end» (newValue - oldDim.value)),
        loads := s.loads.map (shiftLoad oldDim.«end» (newValue - oldDim.value)),
        dimensions := mapIdxFrom (shiftDim i oldDim.«end» (newValue - oldDim.value)) 0
          (s.dimensions.set i
            { oldDim with value := newValue, «end» := oldDim.start + newValue }) } := by
  simp only [updateDimension, h1, h2]

/-- What `updateLoad` computes when the edited load is found at index `i`
with contents `l`. -/
theorem updateLoad_eq_of_found {s : BeamStructure} {loadId : String} {u : LoadFieldUpdate}
    {i : Nat} {l : BeamLoad}
    (h1 : s.loads.findIdx? (fun a => a.id == loadId) = some i)
    (h2 : s.loads[i]? = some l) :
    updateLoad s loadId u = { s with loads := s.loads.set i (applyLoadField l u) } := by
  simp only [updateLoad, h1, h2]

/-! ## Claim C1 — the three-case load rule -/

/-- The load rule exactly as the specification states it: a load with
`start >= pivot - epsilon` is translated on both endpoints; otherwise one
with `end >= pivot - epsilon` has only its `end` shifted; otherwise it is
unchanged.  (Unlike `shiftLoad`, the straddle case carries no
`start < pivot` conjunct; the two agree because a load reaching the second
case already has `start < pivot - epsilon < pivot`.) -/
def specLoadShift (pivot diff : ℚ) (l : BeamLoad) : BeamLoad :=
  if l.start ≥ pivot - epsilon then
    { l with start := l.start + diff, «end» := l.«end» + diff }
  else if l.«end» ≥ pivot - epsilon then
    { l with «end» := l.«end» + diff }
  else l

theorem shiftLoad_eq_specLoadShift (pivot diff : ℚ) (l : BeamLoad) :
    shiftLoad pivot diff l = specLoadShift pivot diff l := by
  unfold shiftLoad specLoadShift
  by_cases h1 : l.start ≥ pivot - epsilon
  · simp [h1]
  · have hlt : l.start < pivot := by
      have h2 : l.start < pivot - epsilon := lt_of_not_ge h1
      have h3 : pivot - epsilon < pivot := by
        have : (0 : ℚ) < epsilon := by norm_num [epsilon]
        linarith
      linarith
    by_cases h4 : l.«end» ≥ pivot - epsilon
    · simp [h1, h4, hlt]
    · simp [h1, h4]

/-- C1: for every structure, existing dimension id (found at index `i`
holding `oldDim`), and new length value, `updateDimension` transforms each
load by exactly the spec's three cases against `pivot = oldDim.end` and
`diff = newValue - oldDim.value`: both endpoints shifted when
`start >= pivot - 0.001`, only `end` shifted when instead
`end >= pivot - 0.001`, unchanged otherwise. -/
theorem updateDimension_load_cases (s : BeamStructure) (dimId : String) (newValue : ℚ)
    (i : Nat) (oldDim : Dimension)
    (h1 : s.dimensions.findIdx? (fun d => d.id == dimId) = some i)
    (h2 : s.dimensions[i]? = some oldDim) :
    (updateDimension s dimId newValue).loads =
      s.loads.map (specLoadShift oldDim.«end» (newValue - oldDim.value)) := by
  rw [updateDimension_eq_of_found h1 h2]
  exact List.map_congr_left fun l _ => shiftLoad_eq_specLoadShift _ _ l

/-! ## Claim C2 — shifting the other dimensions and the nodes -/

/-- C2: for every structure, existing dimension id, and new length value,
every *other* dimension with `start >= pivot - 0.001` has both `start` and
`end` shifted by `diff` (and is untouched below the threshold), and every
node with `position >= pivot - 0.001` has `position` shifted by `diff`
(and is untouched below the threshold). -/
theorem updateDimension_shift_after_pivot (s : BeamStructure) (dimId : String) (newValue : ℚ)
    (i : Nat) (oldDim : Dimension)
    (h1 : s.dimensions.findIdx? (fun d => d.id == dimId) = some i)
    (h2 : s.dimensions[i]? = some oldDim) :
    (∀ (j : Nat) (d : Dimension), j ≠ i → s.dimensions[j]? = some d →
      (updateDimension s dimId newValue).dimensions[j]? = some (
        if d.start ≥ oldDim.«end» - epsilon then
          { d with start := d.start + (newValue - oldDim.value),
                   «end» := d.«end» + (newValue - oldDim.value) }
        else d)) ∧
    (∀ (j : Nat) (n : BeamNode), s.nodes[j]? = some n →
      (updateDimension s dimId newValue).nodes[j]? = some (
        if n.position ≥ oldDim.«end» - epsilon then
          { n with position := n.position + (newValue - oldDim.value) }
        else n)) := by
  rw [updateDimension_eq_of_found h1 h2]
  constructor
  · intro j d hji hjd
    rw [getElem?_mapIdxFrom, List.getElem?_set_ne (fun h => hji h.symm), hjd]
    simp only [Option.map_some', Nat.zero_add, Option.some.injEq]
    unfold shiftDim
    by_cases hd : d.start ≥ oldDim.«end» - epsilon
    · simp [hji, hd]
    · simp [hd]
  · intro j n hjn
    simp only [List.getElem?_map, hjn, Option.map_some', Option.some.injEq]
    unfold shiftNode
    split <;> simp_all

/-! ## Claim C3 — the edited dimension itself -/

/-- C3: for every structure, existing dimension id, and new length value,
`updateDimension` replaces the edited dimension by
`{ ...oldDim, value := newValue, end := oldDim.start + newValue }` — its
`start` (and every other field) unchanged. -/
theorem updateDimension_edited_dimension (s : BeamStructure) (dimId : String) (newValue : ℚ)
    (i : Nat) (oldDim : Dimension)
    (h1 : s.dimensions.findIdx? (fun d => d.id == dimId) = some i)
    (h2 : s.dimensions[i]? = some oldDim) :
    (updateDimension s dimId newValue).dimensions[i]? =
      some { oldDim with value := newValue, «end» := oldDim.start + newValue } := by
  rw [updateDimension_eq_of_found h1 h2, getElem?_mapIdxFrom,
    List.getElem?_set_self (lt_length_of_getElem? h2)]
  simp [shiftDim]

/-! ## Claim C4 — totalLength is the maximum node position -/

/-- C4: for every structure with an existing dimension id and any new
length value, the resulting structure's `totalLength` equals the maximum
of the positions of its (resulting) nodes — `⊥` (JS `-Infinity`) when
there are none. -/
theorem updateDimension_totalLength_max (s : BeamStructure) (dimId : String) (newValue : ℚ)
    (h : (s.dimensions.findIdx? (fun d => d.id == dimId)).isSome) :
    (updateDimension s dimId newValue).totalLength =
      ((updateDimension s dimId newValue).nodes.map (fun n => n.position)).maximum := by
  obtain ⟨i, hi⟩ := Option.isSome_iff_exists.mp h
  obtain ⟨oldDim, h2⟩ := exists_getElem?_of_findIdx? hi
  rw [updateDimension_eq_of_found hi h2]

/-! ## Claim C5 — unknown dimension id is a no-op -/

/-- C5: for every structure and every dimension id not present in the
structure's dimension set, `updateDimension` returns the structure
completely unchanged. -/
theorem updateDimension_unknown_id (s : BeamStructure) (dimId : String) (newValue : ℚ)
    (h : ∀ d ∈ s.dimensions, d.id ≠ dimId) :
    updateDimension s dimId newValue = s := by
  have hnone : s.dimensions.findIdx? (fun d => d.id == dimId) = none := by
    rw [List.findIdx?_eq_none_iff]
    intro d hd
    simpa using h d hd
  unfold updateDimension
  rw [hnone]

/-! ## Claim C6 — a `diff = 0` edit

The claim as frozen quantifies over *every* structure; it fails on
structures that violate the §3 invariants, because the code
unconditionally rewrites the edited dimension's `end` to `start + value`
and `totalLength` to the maximum node position.  The amended claim
restricts to structures satisfying those two invariants for the edit. -/

theorem shiftDim_zero (k : Nat) (p : ℚ) (j : Nat) (d : Dimension) :
    shiftDim k p 0 j d = d := by
  unfold shiftDim
  split <;> simp

theorem shiftNode_zero (p : ℚ) (n : BeamNode) : shiftNode p 0 n = n := by
  unfold shiftNode
  split <;> simp

theorem shiftLoad_zero (p : ℚ) (l : BeamLoad) : shiftLoad p 0 l = l := by
  unfold shiftLoad
  split
  · simp
  · split <;> simp

/-- C6 (amended): for every structure whose `totalLength` already equals
the maximum node position and whose edited dimension already satisfies
`end = start + value`, editing that dimension to its current value
(`diff = 0`) returns a structure equal to the input. -/
theorem updateDimension_diff_zero_id (s : BeamStructure) (dimId : String)
    (i : Nat) (oldDim : Dimension)
    (h1 : s.dimensions.findIdx? (fun d => d.id == dimId) = some i)
    (h2 : s.dimensions[i]? = some oldDim)
    (hend : oldDim.«end» = oldDim.start + oldDim.value)
    (htot : s.totalLength = (s.nodes.map (fun n => n.position)).maximum) :
    updateDimension s dimId oldDim.value = s := by
  rw [updateDimension_eq_of_found h1 h2]
  have hdiff : oldDim.value - oldDim.value = 0 := sub_self _
  have hnew : ({ oldDim with value := oldDim.value, «end» := oldDim.start + oldDim.value }
      : Dimension) = oldDim := by
    cases oldDim with
    | mk _ _ _ _ _ _ _ => simp_all
  have hnodes : s.nodes.map (shiftNode oldDim.«end» (oldDim.value - oldDim.value)) = s.nodes := by
    rw [hdiff]
    exact map_pointwise_id fun n _ => shiftNode_zero _ n
  have hloads : s.loads.map (shiftLoad oldDim.«end» (oldDim.value - oldDim.value)) = s.loads := by
    rw [hdiff]
    exact map_pointwise_id fun l _ => shiftLoad_zero _ l
  have hdims : mapIdxFrom (shiftDim i oldDim.«end» (oldDim.value - oldDim.value)) 0
      (s.dimensions.set i
        { oldDim with value := oldDim.value, «end» := oldDim.start + oldDim.value })
      = s.dimensions := by
    rw [hdiff, hnew, set_getElem?_eq _ _ _ h2]
    exact mapIdxFrom_id _ (fun j d => shiftDim_zero i oldDim.«end» j d) 0 s.dimensions
  rw [hnodes, hloads, hdims, ← htot]

/-! ## Claim C7 — frame of the geometry before the pivot

The claim as frozen says everything *strictly before* the pivot is
unchanged; the code's threshold is `pivot - 0.001`, so elements inside the
band `[pivot - 0.001, pivot)` are strictly before the pivot yet shifted.
The amended claim uses the threshold `pivot - 0.001` (and, for a load,
asks both endpoints to be below it, which for the code's `start <= end`
loads is just `end < pivot - 0.001`). -/

/-- C7 (amended): for every structure, existing dimension id, and new
length value, every node with `position < pivot - 0.001`, every load with
`start` and `end` both `< pivot - 0.001`, and every non-edited dimension
with `start < pivot - 0.001` appear unchanged at their positions in the
result. -/
theorem updateDimension_frame_before_pivot (s : BeamStructure) (dimId : String) (newValue : ℚ)
    (i : Nat) (oldDim : Dimension)
    (h1 : s.dimensions.findIdx? (fun d => d.id == dimId) = some i)
    (h2 : s.dimensions[i]? = some oldDim) :
    (∀ (j : Nat) (n : BeamNode), s.nodes[j]? = some n →
      n.position < oldDim.«end» - epsilon →
      (updateDimension s dimId newValue).nodes[j]? = some n) ∧
    (∀ (j : Nat) (l : BeamLoad), s.loads[j]? = some l →
      l.start < oldDim.«end» - epsilon → l.«end» < oldDim.«end» - epsilon →
      (updateDimension s dimId newValue).loads[j]? = some l) ∧
    (∀ (j : Nat) (d : Dimension), j ≠ i → s.dimensions[j]? = some d →
      d.start < oldDim.«end» - epsilon →
      (updateDimension s dimId newValue).dimensions[j]? = some d) := by
  rw [updateDimension_eq_of_found h1 h2]
  refine ⟨?_, ?_, ?_⟩
  · intro j n hjn hpos
    simp only [List.getElem?_map, hjn, Option.map_some', Option.some.injEq]
    unfold shiftNode
    rw [if_neg (not_le.mpr hpos)]
  · intro j l hjl hstart hend
    simp only [List.getElem?_map, hjl, Option.map_some', Option.some.injEq]
    unfold shiftLoad
    rw [if_neg (not_le.mpr hstart), if_neg]
    rintro ⟨hge, -⟩
    exact absurd hge (not_le.mpr hend)
  · intro j d hji hjd hstart
    rw [getElem?_mapIdxFrom, List.getElem?_set_ne (fun h => hji h.symm), hjd]
    simp only [Option.map_some', Nat.zero_add, Option.some.injEq]
    unfold shiftDim
    rw [if_neg]
    rintro ⟨-, hge⟩
    exact absurd hge (not_le.mpr hstart)

/-! ## Claim C8 — updateLoad changes only the named field of one load -/

/-- The names of the fields of `BeamLoad` (the possible values of the
TypeScript `field: keyof BeamLoad` argument). -/
inductive LoadFieldName where
  | id | type | start | «end» | magnitude | unit | symbol | direction
deriving DecidableEq

/-- The field an update names. -/
def fieldName : LoadFieldUpdate → LoadFieldName
  | .id _ => .id
  | .type _ => .type
  | .start _ => .start
  | .«end» _ => .«end»
  | .magnitude _ => .magnitude
  | .unit _ => .unit
  | .symbol _ => .symbol
  | .direction _ => .direction

/-- The value of a `BeamLoad` at a named field, injected into a common
value type so that fields of different types can be compared uniformly. -/
def getField (l : BeamLoad) : LoadFieldName → String ⊕ ℚ ⊕ LoadType ⊕ Direction
  | .id => Sum.inl l.id
  | .type => Sum.inr (Sum.inr (Sum.inl l.type))
  | .start => Sum.inr (Sum.inl l.start)
  | .«end» => Sum.inr (Sum.inl l.«end»)
  | .magnitude => Sum.inr (Sum.inl l.magnitude)
  | .unit => Sum.inl l.unit
  | .symbol => Sum.inl l.symbol
  | .direction => Sum.inr (Sum.inr (Sum.inr l.direction))

/-- C8: `updateLoad` never touches the nodes, the dimensions or
`totalLength`; with no matching load id it is the identity; when the id
matches at index `i`, every other position of the load list is unchanged,
and position `i` holds the old load with exactly the named field
replaced (every other field reads back unchanged). -/
theorem updateLoad_frame (s : BeamStructure) (loadId : String) (u : LoadFieldUpdate) :
    ((updateLoad s loadId u).nodes = s.nodes ∧
     (updateLoad s loadId u).dimensions = s.dimensions ∧
     (updateLoad s loadId u).totalLength = s.totalLength) ∧
    ((∀ l ∈ s.loads, l.id ≠ loadId) → updateLoad s loadId u = s) ∧
    (∀ (i : Nat), s.loads.findIdx? (fun l => l.id == loadId) = some i →
      (∀ (j : Nat), j ≠ i → (updateLoad s loadId u).loads[j]? = s.loads[j]?) ∧
      (∀ (l : BeamLoad), s.loads[i]? = some l →
        (updateLoad s loadId u).loads[i]? = some (applyLoadField l u) ∧
        ∀ (f : LoadFieldName), f ≠ fieldName u →
          getField (applyLoadField l u) f = getField l f)) := by
  refine ⟨?_, ?_, ?_⟩
  · rcases hf : s.loads.findIdx? (fun l => l.id == loadId) with _ | i
    · simp [updateLoad, hf]
    · rcases hg : s.loads[i]? with _ | l
      · simp [updateLoad, hf, hg]
      · simp [updateLoad, hf, hg]
  · intro h
    have hnone : s.loads.findIdx? (fun l => l.id == loadId) = none := by
      rw [List.findIdx?_eq_none_iff]
      intro l hl
      simpa using h l hl
    unfold updateLoad
    rw [hnone]
  · intro i hfi
    obtain ⟨a, ha⟩ := exists_getElem?_of_findIdx? hfi
    constructor
    · intro j hji
      rw [updateLoad_eq_of_found hfi ha]
      exact List.getElem?_set_ne fun h => hji h.symm
    · intro l hl
      have hal : a = l := by
        rw [ha] at hl
        exact Option.some.inj hl
      subst hal
      refine ⟨?_, ?_⟩
      · rw [updateLoad_eq_of_found hfi ha]
        exact List.getElem?_set_self (lt_length_of_getElem? ha)
      · intro f hf
        cases u <;> cases f <;> simp_all [fieldName, getField, applyLoadField]

/-! ## Claim C9 — updateDimension preserves counts, order and all
non-positional fields -/

/-- The non-positional fields of a node. -/
def nodeFrame (n : BeamNode) : String × String × Option SupportType × Option Bool :=
  (n.id, n.label, n.supportType, n.hasHinge)

/-- The non-positional fields of a load. -/
def loadFrame (l : BeamLoad) : String × LoadType × ℚ × String × String × Direction :=
  (l.id, l.type, l.magnitude, l.unit, l.symbol, l.direction)

/-- The non-positional fields of a dimension. -/
def dimFrame (d : Dimension) : String × String × String × Option ℚ :=
  (d.id, d.unit, d.symbol, d.yOffset)

/-- C9: for every structure, dimension id, and new length value,
`updateDimension` preserves the number and order of nodes, loads and
dimensions, and leaves every non-positional field (node `id`, `label`,
`supportType`, `hasHinge`; load `id`, `type`, `magnitude`, `unit`,
`symbol`, `direction`; dimension `id`, `unit`, `symbol`, `yOffset`)
unchanged — stated as equality of the projections to those fields, which
forces equal lengths and identical fields position by position. -/
theorem updateDimension_preserves_frame (s : BeamStructure) (dimId : String) (newValue : ℚ) :
    (updateDimension s dimId newValue).nodes.map nodeFrame = s.nodes.map nodeFrame ∧
    (updateDimension s dimId newValue).loads.map loadFrame = s.loads.map loadFrame ∧
    (updateDimension s dimId newValue).dimensions.map dimFrame = s.dimensions.map dimFrame := by
  rcases hf : s.dimensions.findIdx? (fun d => d.id == dimId) with _ | i
  · simp [updateDimension, hf]
  · rcases hg : s.dimensions[i]? with _ | oldDim
    · simp [updateDimension, hf, hg]
    · rw [updateDimension_eq_of_found hf hg]
      refine ⟨?_, ?_, ?_⟩
      · rw [List.map_map]
        refine List.map_congr_left fun n _ => ?_
        unfold Function.comp shiftNode nodeFrame
        split <;> rfl
      · rw [List.map_map]
        refine List.map_congr_left fun l _ => ?_
        unfold Function.comp shiftLoad loadFrame
        split
        · rfl
        · split <;> rfl
      · apply List.ext_getElem?
        intro j
        rw [List.getElem?_map, List.getElem?_map, getElem?_mapIdxFrom, Nat.zero_add,
          Option.map_map]
        by_cases hji : j = i
        · subst hji
          rw [List.getElem?_set_self (lt_length_of_getElem? hg), hg]
          simp only [Option.map_some', Function.comp]
          simp [shiftDim, dimFrame]
        · rw [List.getElem?_set_ne fun h => hji h.symm]
          cases hd : s.dimensions[j]? with
          | none => rfl
          | some d =>
            simp only [Option.map_some', Function.comp]
            unfold shiftDim dimFrame
            split <;> rfl

/-! ## Claim C10 — empty node list makes totalLength -Infinity -/

/-- C10: for any structure whose node list is empty and that contains the
edited dimension id, `updateDimension` sets `totalLength` to the maximum
over no positions — JS `Math.max()` of an empty spread, i.e. `-Infinity`,
modelled as `⊥` — instead of leaving `totalLength` alone. -/
theorem updateDimension_empty_nodes_totalLength (s : BeamStructure) (dimId : String)
    (newValue : ℚ)
    (hn : s.nodes = [])
    (h : (s.dimensions.findIdx? (fun d => d.id == dimId)).isSome) :
    (updateDimension s dimId newValue).totalLength = ⊥ := by
  obtain ⟨i, hi⟩ := Option.isSome_iff_exists.mp h
  obtain ⟨oldDim, h2⟩ := exists_getElem?_of_findIdx? hi
  rw [updateDimension_eq_of_found hi h2, hn]
  rfl

/-! ## Concrete sample structures for witnesses and counterexamples -/

def nodeA : BeamNode :=
  { id := "nA", label := "A", position := 0, supportType := some .PIN, hasHinge := none }

def nodeB : BeamNode :=
  { id := "nB", label := "B", position := 10, supportType := some .ROLLER, hasHinge := none }

def nodeC : BeamNode :=
  { id := "nC", label := "C", position := 16, supportType := some .FREE, hasHinge := none }

def dimL1 : Dimension :=
  { id := "dL1", start := 0, «end» := 10, value := 10, unit := "m", symbol := "L1", yOffset := none }

def dimL2 : Dimension :=
  { id := "dL2", start := 10, «end» := 16, value := 6, unit := "m", symbol := "L2", yOffset := none }

def dimHalf : Dimension :=
  { id := "dH", start := 0, «end» := 4, value := 4, unit := "m", symbol := "Lh", yOffset := none }

def loadP : BeamLoad :=
  { id := "ldP", type := .POINT, start := 10, «end» := 10, magnitude := 5, unit := "kN",
    symbol := "P1", direction := .DOWN }

def loadW : BeamLoad :=
  { id := "ldW", type := .DISTRIBUTED, start := 0, «end» := 10, magnitude := 2, unit := "kN/m",
    symbol := "w", direction := .DOWN }

def loadQ : BeamLoad :=
  { id := "ldQ", type := .POINT, start := 3, «end» := 3, magnitude := 1, unit := "kN",
    symbol := "P2", direction := .DOWN }

/-- A simple two-node beam with one dimension and two loads; it satisfies
the §3 invariants. -/
def sampleS : BeamStructure :=
  { totalLength := (10 : ℚ), nodes := [nodeA, nodeB], loads := [loadP, loadW],
    dimensions := [dimL1] }

/-- A three-node beam with three dimensions, giving material on both sides
of the pivot of `dL1`. -/
def sample2 : BeamStructure :=
  { totalLength := (16 : ℚ), nodes := [nodeA, nodeB, nodeC], loads := [loadP, loadQ],
    dimensions := [dimL1, dimL2, dimHalf] }

/-- A structure with an empty node list but a known dimension. -/
def sampleEmptyNodes : BeamStructure :=
  { totalLength := (10 : ℚ), nodes := [], loads := [], dimensions := [dimL1] }

/-- A dimension violating the `end = start + value` invariant (`end` is 4
but `start + value` is 5). -/
def dimBad : Dimension :=
  { id := "dB", start := 0, «end» := 4, value := 5, unit := "m", symbol := "L", yOffset := none }

def nodeD : BeamNode :=
  { id := "nD", label := "D", position := 5, supportType := some .PIN, hasHinge := none }

def sampleBadDim : BeamStructure :=
  { totalLength := (5 : ℚ), nodes := [nodeD], loads := [], dimensions := [dimBad] }

/-- A node strictly before the pivot `10` of `dL1` but inside the band
`[10 - 0.001, 10)`: its position is `9.9995`. -/
def nodeNear : BeamNode :=
  { id := "nN", label := "N", position := 19999 / 2000, supportType := none, hasHinge := none }

def sampleBand : BeamStructure :=
  { totalLength := (19999 / 2000 : ℚ), nodes := [nodeNear], loads := [],
    dimensions := [dimL1] }

/-! ## Counterexamples -/

/-- C6 counterexample: editing `dimBad` — whose `end` (4) is not
`start + value` (5) — to its current value 5 (so `diff = 0`) does *not*
return the input structure: the edit rewrites `end` to 5. -/
theorem updateDimension_diff_zero_counterexample :
    sampleBadDim.dimensions.findIdx? (fun d => d.id == "dB") = some 0 ∧
    sampleBadDim.dimensions[0]? = some dimBad ∧
    dimBad.value = 5 ∧
    updateDimension sampleBadDim "dB" 5 ≠ sampleBadDim := by
  refine ⟨by decide, rfl, rfl, fun h => ?_⟩
  have h0 : (updateDimension sampleBadDim "dB" 5).dimensions = sampleBadDim.dimensions := by
    rw [h]
  have h1 : (updateDimension sampleBadDim "dB" 5).dimensions = [{ dimBad with «end» := 5 }] := by
    norm_num [updateDimension, sampleBadDim, dimBad, nodeD, mapIdxFrom, shiftDim, shiftNode,
      shiftLoad, epsilon]
  rw [h1] at h0
  have h2 := congrArg (fun l => ((l.headD dimBad).«end» : ℚ)) h0
  norm_num [dimBad, sampleBadDim] at h2

/-- C7 counterexample: `nodeNear` sits at `9.9995 < 10 = pivot`, strictly
before the pivot, yet the edit moves it (the code's threshold is
`pivot - 0.001 = 9.999`). -/
theorem updateDimension_before_pivot_counterexample :
    sampleBand.dimensions.findIdx? (fun d => d.id == "dL1") = some 0 ∧
    sampleBand.dimensions[0]? = some dimL1 ∧
    nodeNear.position < dimL1.«end» ∧
    sampleBand.nodes[0]? = some nodeNear ∧
    (updateDimension sampleBand "dL1" 11).nodes[0]? ≠ some nodeNear := by
  refine ⟨by decide, rfl, by norm_num [nodeNear, dimL1], rfl, ?_⟩
  have h1 : (updateDimension sampleBand "dL1" 11).nodes[0]? =
      some { nodeNear with position := 19999 / 2000 + 1 } := by
    norm_num [updateDimension, sampleBand, dimL1, nodeNear, mapIdxFrom, shiftDim, shiftNode,
      shiftLoad, epsilon]
  rw [h1]
  intro h2
  have h3 := congrArg (fun o => ((o.getD nodeNear).position : ℚ)) h2
  norm_num [nodeNear] at h3

/-! ## Witnesses -/

/-- C1 witness: editing `dL1` of `sampleS` from 10 to 15. -/
theorem updateDimension_load_cases_witness :
    sampleS.dimensions.findIdx? (fun d => d.id == "dL1") = some 0 ∧
    sampleS.dimensions[0]? = some dimL1 ∧
    (updateDimension sampleS "dL1" 15).loads =
      sampleS.loads.map (specLoadShift dimL1.«end» (15 - dimL1.value)) :=
  ⟨by decide, rfl, updateDimension_load_cases sampleS "dL1" 15 0 dimL1 (by decide) rfl⟩

/-- C2 witness: editing `dL1` of `sample2` from 10 to 15 shifts `dL2` to
`[15, 21]` and node `C` to 21. -/
theorem updateDimension_shift_after_pivot_witness :
    sample2.dimensions.findIdx? (fun d => d.id == "dL1") = some 0 ∧
    sample2.dimensions[0]? = some dimL1 ∧
    (updateDimension sample2 "dL1" 15).dimensions[1]? =
      some { dimL2 with start := 15, «end» := 21 } ∧
    (updateDimension sample2 "dL1" 15).nodes[2]? = some { nodeC with position := 21 } := by
  have h := updateDimension_shift_after_pivot sample2 "dL1" 15 0 dimL1 (by decide) rfl
  refine ⟨by decide, rfl, ?_, ?_⟩
  · rw [h.1 1 dimL2 (by decide) rfl]
    norm_num [dimL1, dimL2, epsilon]
  · rw [h.2 2 nodeC rfl]
    norm_num [dimL1, nodeC, epsilon]

/-- C3 witness: editing `dL1` of `sampleS` to 15 yields
`{ dL1 with value := 15, end := 0 + 15 }` at its index. -/
theorem updateDimension_edited_dimension_witness :
    sampleS.dimensions.findIdx? (fun d => d.id == "dL1") = some 0 ∧
    sampleS.dimensions[0]? = some dimL1 ∧
    (updateDimension sampleS "dL1" 15).dimensions[0]? =
      some { dimL1 with value := 15, «end» := dimL1.start + 15 } :=
  ⟨by decide, rfl, updateDimension_edited_dimension sampleS "dL1" 15 0 dimL1 (by decide) rfl⟩

/-- C4 witness at `sampleS`. -/
theorem updateDimension_totalLength_max_witness :
    (sampleS.dimensions.findIdx? (fun d => d.id == "dL1")).isSome = true ∧
    (updateDimension sampleS "dL1" 15).totalLength =
      ((updateDimension sampleS "dL1" 15).nodes.map (fun n => n.position)).maximum :=
  ⟨by decide, updateDimension_totalLength_max sampleS "dL1" 15 (by decide)⟩

/-- C5 witness: `sampleS` has no dimension with id `dMissing`. -/
theorem updateDimension_unknown_id_witness :
    (∀ d ∈ sampleS.dimensions, d.id ≠ "dMissing") ∧
    updateDimension sampleS "dMissing" 3 = sampleS :=
  ⟨by decide, updateDimension_unknown_id sampleS "dMissing" 3 (by decide)⟩

/-- C6 (amended) witness: `sampleS` satisfies both invariants, and editing
`dL1` to its current value returns `sampleS` unchanged. -/
theorem updateDimension_diff_zero_id_witness :
    sampleS.dimensions.findIdx? (fun d => d.id == "dL1") = some 0 ∧
    sampleS.dimensions[0]? = some dimL1 ∧
    dimL1.«end» = dimL1.start + dimL1.value ∧
    sampleS.totalLength = (sampleS.nodes.map (fun n => n.position)).maximum ∧
    updateDimension sampleS "dL1" dimL1.value = sampleS :=
  ⟨by decide, rfl, by norm_num [dimL1], by decide,
    updateDimension_diff_zero_id sampleS "dL1" 0 dimL1 (by decide) rfl
      (by norm_num [dimL1]) (by decide)⟩

/-- C7 (amended) witness: after editing `dL1` of `sample2` to 15, the
node, load and dimension strictly below `pivot - 0.001` are unchanged. -/
theorem updateDimension_frame_before_pivot_witness :
    sample2.dimensions.findIdx? (fun d => d.id == "dL1") = some 0 ∧
    sample2.dimensions[0]? = some dimL1 ∧
    (updateDimension sample2 "dL1" 15).nodes[0]? = some nodeA ∧
    (updateDimension sample2 "dL1" 15).loads[1]? = some loadQ ∧
    (updateDimension sample2 "dL1" 15).dimensions[2]? = some dimHalf := by
  have h := updateDimension_frame_before_pivot sample2 "dL1" 15 0 dimL1 (by decide) rfl
  refine ⟨by decide, rfl, ?_, ?_, ?_⟩
  · exact h.1 0 nodeA rfl (by norm_num [nodeA, dimL1, epsilon])
  · exact h.2.1 1 loadQ rfl (by norm_num [loadQ, dimL1, epsilon])
      (by norm_num [loadQ, dimL1, epsilon])
  · exact h.2.2 2 dimHalf (by decide) rfl (by norm_num [dimHalf, dimL1, epsilon])

/-- C8 witness: setting the magnitude of `ldW` in `sampleS` to 7 touches
nothing but that one field of that one load. -/
theorem updateLoad_frame_witness :
    sampleS.loads.findIdx? (fun l => l.id == "ldW") = some 1 ∧
    (updateLoad sampleS "ldW" (.magnitude 7)).nodes = sampleS.nodes ∧
    (updateLoad sampleS "ldW" (.magnitude 7)).dimensions = sampleS.dimensions ∧
    (updateLoad sampleS "ldW" (.magnitude 7)).totalLength = sampleS.totalLength ∧
    (updateLoad sampleS "ldW" (.magnitude 7)).loads[0]? = sampleS.loads[0]? ∧
    (updateLoad sampleS "ldW" (.magnitude 7)).loads[1]? =
      some (applyLoadField loadW (.magnitude 7)) ∧
    getField (applyLoadField loadW (.magnitude 7)) .unit = getField loadW .unit := by
  have h := updateLoad_frame sampleS "ldW" (.magnitude 7)
  have hfi : sampleS.loads.findIdx? (fun l => l.id == "ldW") = some 1 := by decide
  have h2 := h.2.2 1 hfi
  exact ⟨hfi, h.1.1, h.1.2.1, h.1.2.2, h2.1 0 (by decide), (h2.2 loadW rfl).1,
    (h2.2 loadW rfl).2 .unit (by decide)⟩

/-- C10 witness: `sampleEmptyNodes` has no nodes; the edit sets
`totalLength` to `⊥` (JS `-Infinity`). -/
theorem updateDimension_empty_nodes_totalLength_witness :
    sampleEmptyNodes.nodes = [] ∧
    (sampleEmptyNodes.dimensions.findIdx? (fun d => d.id == "dL1")).isSome = true ∧
    (updateDimension sampleEmptyNodes "dL1" 15).totalLength = ⊥ :=
  ⟨rfl, by decide, updateDimension_empty_nodes_totalLength sampleEmptyNodes "dL1" 15 rfl
    (by decide)⟩

end StructuraLens
